import Mathlib

/-
Shallow embedding of the Ahjoor ROSCA contract
(src/contracts/ahjoor-rosca/src/lib.rs).

Modelling conventions:
- Principals and token identifiers (soroban Address) are Nat.
- The instance storage holds the whole Scheme record or nothing:
  the contract only ever creates all keys together in init, so a
  reachable storage is either fully absent or a complete record.
  get_state reads each key with unwrap_or, which on the all-absent
  storage yields the defaults (0, [], 0).
- The host collaborators are injected parameters: env_now is the ledger
  timestamp, auth says which principals the current invocation can act
  for (require_auth), transfer is the token client (true = the transfer
  succeeds, false = it traps), contract is current_contract_address.
- A Rust panic aborts the whole invocation and reverts every effect, so
  each entry point returns Except Err: an error result carries no new
  state and no transfer, which is exactly the abort-and-rollback
  semantics of the host.
- Successful calls return the new Scheme together with the list of token
  transfers (from, to, amount) performed by the call, in order, and for
  close_round also the emitted event (closed round number, defaulters).
- u32 and u64 counters are modelled as Nat, i128 amounts as Int; the
  standard soroban release profile traps on overflow, so no wrap-around
  arithmetic is observable on a successful call.
-/

namespace Ahjoor

/-- Principal / token identifiers (soroban Address). -/
abbrev Address := Nat

/-- One token movement: (from, to, amount). -/
abbrev TransferRec := Address × Address × Int

/-- The single persisted Scheme record: the instance-storage keys
Admin, Members, ContributionAmt, Token, CurrentRound, PaidMembers,
RoundDuration, RoundDeadline, Defaulters. -/
structure Scheme where
  admin : Address
  members : List Address
  contributionAmt : Int
  token : Address
  currentRound : Nat
  paidMembers : List Address
  roundDuration : Nat
  roundDeadline : Nat
  defaulters : List Address
deriving Repr, DecidableEq

/-- The distinct abort causes of the contract. Each corresponds to one
panic or trap site in the source. -/
inductive Err where
  | AlreadyInitialized
  | NotInitialized
  | Unauthorized
  | DeadlinePassed
  | NotAMember
  | AlreadyContributed
  | TransferFailed
  | DeadlineNotYetPassed
deriving Repr, DecidableEq

/-- `init` (lib.rs lines 24-60): rejects a second initialization when the
Members key already exists, otherwise persists the full record with
round 0, empty paidMembers and defaulters, and deadline now + duration.
It performs no token transfer. -/
def init (env_now : Nat) (st : Option Scheme) (admin : Address)
    (members : List Address) (contribution_amount : Int) (token : Address)
    (round_duration : Nat) : Except Err Scheme :=
  match st with
  | some _ => .error .AlreadyInitialized
  | none =>
      .ok { admin := admin
            members := members
            contributionAmt := contribution_amount
            token := token
            currentRound := 0
            paidMembers := []
            roundDuration := round_duration
            roundDeadline := env_now + round_duration
            defaulters := [] }

/-- `complete_round_payout` (lib.rs lines 181-221): pays the round-robin
recipient members[currentRound % members.len()] the pot
amount * paidMembers.len(), then advances the round, clears paidMembers
and resets the deadline. The payout transfer can trap, aborting the
whole enclosing contribute. -/
def complete_round_payout (env_now : Nat)
    (transfer : Address → Address → Int → Bool) (contract : Address)
    (s : Scheme) (amount : Int) (acc : List TransferRec) :
    Except Err (Scheme × List TransferRec) :=
  let recipient_idx := s.currentRound % s.members.length
  let payout_recipient := s.members.getD recipient_idx 0
  let total_pot := amount * (s.paidMembers.length : Int)
  if transfer contract payout_recipient total_pot then
    .ok ({ s with currentRound := s.currentRound + 1
                  paidMembers := []
                  roundDeadline := env_now + s.roundDuration },
         acc ++ [(contract, payout_recipient, total_pot)])
  else .error .TransferFailed

/-- `contribute` (lib.rs lines 62-116): require_auth, then deadline check
(strict: only now > deadline rejects), membership check, double-payment
check, the incoming transfer, recording in paidMembers, and the
auto-payout when paidMembers reaches members length. Reading any storage
key on an uninitialized instance traps (expect), modelled as
NotInitialized. -/
def contribute (env_now : Nat) (auth : Address → Bool)
    (transfer : Address → Address → Int → Bool) (contract : Address)
    (st : Option Scheme) (contributor : Address) :
    Except Err (Scheme × List TransferRec) :=
  if auth contributor then
    match st with
    | none => .error .NotInitialized
    | some s =>
        if env_now > s.roundDeadline then .error .DeadlinePassed
        else if !(s.members.contains contributor) then .error .NotAMember
        else if s.paidMembers.contains contributor then
          .error .AlreadyContributed
        else if transfer contributor contract s.contributionAmt then
          let paid_members := s.paidMembers ++ [contributor]
          let s1 := { s with paidMembers := paid_members }
          if paid_members.length = s.members.length then
            complete_round_payout env_now transfer contract s1
              s.contributionAmt [(contributor, contract, s.contributionAmt)]
          else .ok (s1, [(contributor, contract, s.contributionAmt)])
        else .error .TransferFailed
  else .error .Unauthorized

/-- `close_round` (lib.rs lines 119-177): reads Admin (trapping when the
instance is uninitialized), requires the admin auth, rejects while
now <= deadline, then stores defaulters = members not in paidMembers,
advances the round, clears paidMembers, resets the deadline from the
closing timestamp, and emits the (closed round, defaulters) event.
It performs no token transfer, so its transfer log is always empty. -/
def close_round (env_now : Nat) (auth : Address → Bool)
    (st : Option Scheme) :
    Except Err (Scheme × List TransferRec × (Nat × List Address)) :=
  match st with
  | none => .error .NotInitialized
  | some s =>
      if auth s.admin then
        if env_now ≤ s.roundDeadline then .error .DeadlineNotYetPassed
        else
          let defaulters :=
            s.members.filter (fun m => !(s.paidMembers.contains m))
          .ok ({ s with defaulters := defaulters
                        currentRound := s.currentRound + 1
                        paidMembers := []
                        roundDeadline := env_now + s.roundDuration },
               [], (s.currentRound, defaulters))
      else .error .Unauthorized

/-- `get_state` (lib.rs lines 223-240): reads CurrentRound, PaidMembers
and RoundDeadline with unwrap_or defaults, so it never traps; on an
uninitialized instance it returns (0, [], 0). -/
def get_state (st : Option Scheme) : Nat × List Address × Nat :=
  match st with
  | none => (0, [], 0)
  | some s => (s.currentRound, s.paidMembers, s.roundDeadline)

/-- Helper: full case analysis of a successful contribute call. Either
the round is still incomplete (contributor appended to paidMembers, one
incoming transfer) or the addition completed the round (auto-payout to
members[currentRound % |members|] of amount * new paid count, round
advanced, paidMembers cleared, deadline reset). -/
theorem contribute_ok_cases (env_now : Nat) (auth : Address → Bool)
    (transfer : Address → Address → Int → Bool) (contract : Address)
    (s : Scheme) (c : Address) (s' : Scheme) (ts : List TransferRec)
    (h : contribute env_now auth transfer contract (some s) c = .ok (s', ts)) :
    auth c = true ∧ env_now ≤ s.roundDeadline ∧ c ∈ s.members ∧
    c ∉ s.paidMembers ∧ transfer c contract s.contributionAmt = true ∧
    ((s.paidMembers.length + 1 ≠ s.members.length ∧
      s' = { s with paidMembers := s.paidMembers ++ [c] } ∧
      ts = [(c, contract, s.contributionAmt)]) ∨
     (s.paidMembers.length + 1 = s.members.length ∧
      s' = { s with currentRound := s.currentRound + 1
                    paidMembers := []
                    roundDeadline := env_now + s.roundDuration } ∧
      ts = [(c, contract, s.contributionAmt),
            (contract, s.members.getD (s.currentRound % s.members.length) 0,
             s.contributionAmt * ((s.paidMembers.length + 1 : Nat) : Int))])) := by
  simp only [contribute, complete_round_payout] at h
  split at h
  case isFalse hauth => simp at h
  case isTrue hauth =>
  split at h
  case isTrue hdl => simp at h
  case isFalse hdl =>
  split at h
  case isTrue hmem => simp at h
  case isFalse hmem =>
  split at h
  case isTrue hpaid => simp at h
  case isFalse hpaid =>
  split at h
  case isFalse htr => simp at h
  case isTrue htr =>
  refine ⟨hauth, Nat.le_of_not_lt hdl, ?_, ?_, htr, ?_⟩
  · simpa [List.elem_iff] using hmem
  · simpa [List.elem_iff] using hpaid
  · split at h
    case isTrue hfull =>
      split at h
      case isFalse => simp at h
      case isTrue hptr =>
        simp only [Except.ok.injEq, Prod.mk.injEq] at h
        obtain ⟨hs, hts⟩ := h
        refine .inr ⟨?_, ?_, ?_⟩
        · simpa [List.length_append] using hfull
        · exact hs.symm
        · rw [← hts]
          simp [List.length_append]
    case isFalse hfull =>
      simp only [Except.ok.injEq, Prod.mk.injEq] at h
      obtain ⟨hs, hts⟩ := h
      refine .inl ⟨?_, hs.symm, hts.symm⟩
      simpa [List.length_append] using hfull

/-- Helper: a successful close_round call fully determined. -/
theorem close_round_ok_cases (env_now : Nat) (auth : Address → Bool)
    (s : Scheme) (s' : Scheme) (ts : List TransferRec)
    (ev : Nat × List Address)
    (h : close_round env_now auth (some s) = .ok (s', ts, ev)) :
    auth s.admin = true ∧ s.roundDeadline < env_now ∧
    s' = { s with
           defaulters := s.members.filter (fun m => !(s.paidMembers.contains m))
           currentRound := s.currentRound + 1
           paidMembers := []
           roundDeadline := env_now + s.roundDuration } ∧
    ts = [] ∧
    ev = (s.currentRound,
          s.members.filter (fun m => !(s.paidMembers.contains m))) := by
  simp only [close_round] at h
  split at h
  case isFalse hauth => simp at h
  case isTrue hauth =>
  split at h
  case isTrue hdl => simp at h
  case isFalse hdl =>
  simp only [Except.ok.injEq, Prod.mk.injEq] at h
  obtain ⟨hs, hts, hev⟩ := h
  exact ⟨hauth, Nat.lt_of_not_le hdl, hs.symm, hts.symm, hev.symm⟩

/-- C1: when contribute succeeds and the addition makes paidMembers as
long as members, the same call pays members[currentRound % |members|]
the pot contributionAmt * (new paid count) out of the contract, then
increments currentRound by exactly 1, empties paidMembers and sets
roundDeadline to now + roundDuration, all in one atomic result. -/
theorem contribute_last_member_pays_out (env_now : Nat)
    (auth : Address → Bool) (transfer : Address → Address → Int → Bool)
    (contract : Address) (s : Scheme) (c : Address) (s' : Scheme)
    (ts : List TransferRec)
    (hok : contribute env_now auth transfer contract (some s) c =
      .ok (s', ts))
    (hfull : s.paidMembers.length + 1 = s.members.length) :
    s'.currentRound = s.currentRound + 1 ∧
    s'.paidMembers = [] ∧
    s'.roundDeadline = env_now + s.roundDuration ∧
    ts = [(c, contract, s.contributionAmt),
          (contract, s.members.getD (s.currentRound % s.members.length) 0,
           s.contributionAmt * ((s.paidMembers.length + 1 : Nat) : Int))] := by
  obtain ⟨-, -, -, -, -, hcase⟩ :=
    contribute_ok_cases env_now auth transfer contract s c s' ts hok
  rcases hcase with ⟨hne, -, -⟩ | ⟨-, hs, hts⟩
  · exact absurd hfull hne
  · subst hs
    exact ⟨rfl, rfl, rfl, hts⟩

/-- Concrete check of C1: two members 10 and 20, member 10 already paid,
member 20 contributes amount 5; the contract pays member 10
(round 0 mod 2) the pot 10 and resets the round state. -/
theorem contribute_last_member_pays_out_witness :
    (Scheme.mk 0 [10, 20] 5 7 1 [] 100 150 []).currentRound =
      (Scheme.mk 0 [10, 20] 5 7 0 [10] 100 50 []).currentRound + 1 ∧
    (Scheme.mk 0 [10, 20] 5 7 1 [] 100 150 []).paidMembers = [] ∧
    (Scheme.mk 0 [10, 20] 5 7 1 [] 100 150 []).roundDeadline =
      50 + (Scheme.mk 0 [10, 20] 5 7 0 [10] 100 50 []).roundDuration ∧
    ([(20, 99, 5), (99, 10, 10)] : List TransferRec) =
      [(20, 99, (Scheme.mk 0 [10, 20] 5 7 0 [10] 100 50 []).contributionAmt),
       (99, (Scheme.mk 0 [10, 20] 5 7 0 [10] 100 50 []).members.getD
          ((Scheme.mk 0 [10, 20] 5 7 0 [10] 100 50 []).currentRound %
            (Scheme.mk 0 [10, 20] 5 7 0 [10] 100 50 []).members.length) 0,
        (Scheme.mk 0 [10, 20] 5 7 0 [10] 100 50 []).contributionAmt *
          (((Scheme.mk 0 [10, 20] 5 7 0 [10] 100 50 []).paidMembers.length +
            1 : Nat) : Int))] :=
  contribute_last_member_pays_out 50 (fun _ => true) (fun _ _ _ => true)
    99 (Scheme.mk 0 [10, 20] 5 7 0 [10] 100 50 [])
    20 (Scheme.mk 0 [10, 20] 5 7 1 [] 100 150 []) [(20, 99, 5), (99, 10, 10)]
    rfl (by decide)

/-- C2: close_round called with the admin authorized and now strictly
past the deadline succeeds, sets defaulters to exactly the set
difference members minus paidMembers (replacing the prior set),
increments currentRound by 1, clears paidMembers, sets roundDeadline to
now + roundDuration measured from the closing timestamp, performs no
token transfer, and emits the event with the closed round number and
the defaulter set. -/
theorem close_round_effects (env_now : Nat) (auth : Address → Bool)
    (s : Scheme) (hadm : auth s.admin = true)
    (hlate : s.roundDeadline < env_now) :
    ∃ d : List Address,
      close_round env_now auth (some s) =
        .ok ({ s with defaulters := d
                      currentRound := s.currentRound + 1
                      paidMembers := []
                      roundDeadline := env_now + s.roundDuration },
             [], (s.currentRound, d)) ∧
      ∀ m, m ∈ d ↔ (m ∈ s.members ∧ m ∉ s.paidMembers) := by
  refine ⟨s.members.filter (fun m => !(s.paidMembers.contains m)), ?_, ?_⟩
  · simp only [close_round, hadm, if_true, if_neg (Nat.not_le.mpr hlate)]
  · intro m
    simp [List.mem_filter, List.elem_iff]

/-- Concrete check of C2: members 1, 2, 3 with only 2 paid; closing at
time 200 past deadline 100 records defaulters 1 and 3. -/
theorem close_round_effects_witness :
    ∃ d : List Address,
      close_round 200 (fun _ => true)
        (some (Scheme.mk 4 [1, 2, 3] 5 7 0 [2] 100 100 [])) =
        .ok ({ Scheme.mk 4 [1, 2, 3] 5 7 0 [2] 100 100 [] with
               defaulters := d
               currentRound := (Scheme.mk 4 [1, 2, 3] 5 7 0 [2]
                 100 100 []).currentRound + 1
               paidMembers := []
               roundDeadline := 200 + (Scheme.mk 4 [1, 2, 3] 5 7 0 [2]
                 100 100 []).roundDuration },
             [], ((Scheme.mk 4 [1, 2, 3] 5 7 0 [2] 100 100 []).currentRound,
                  d)) ∧
      ∀ m, m ∈ d ↔
        (m ∈ (Scheme.mk 4 [1, 2, 3] 5 7 0 [2] 100 100 []).members ∧
         m ∉ (Scheme.mk 4 [1, 2, 3] 5 7 0 [2] 100 100 []).paidMembers) :=
  close_round_effects 200 (fun _ => true)
    (Scheme.mk 4 [1, 2, 3] 5 7 0 [2] 100 100 []) rfl (by decide)

/-- C3: contribute checks its preconditions in order, each aborting with
a distinct error and no transfer and no state change: authentication
first (Unauthorized), then the deadline, where given an authorized
caller the call fails DeadlinePassed exactly when now > roundDeadline
(so now = roundDeadline is accepted past this check), then membership
(NotAMember), then double payment (AlreadyContributed). -/
theorem contribute_check_order (env_now : Nat) (auth : Address → Bool)
    (transfer : Address → Address → Int → Bool) (contract : Address)
    (s : Scheme) (c : Address) :
    (auth c = false →
      contribute env_now auth transfer contract (some s) c =
        .error .Unauthorized) ∧
    (auth c = true →
      ((contribute env_now auth transfer contract (some s) c =
          .error .DeadlinePassed) ↔ s.roundDeadline < env_now) ∧
      (env_now ≤ s.roundDeadline → c ∉ s.members →
        contribute env_now auth transfer contract (some s) c =
          .error .NotAMember) ∧
      (env_now ≤ s.roundDeadline → c ∈ s.members → c ∈ s.paidMembers →
        contribute env_now auth transfer contract (some s) c =
          .error .AlreadyContributed)) := by
  refine ⟨fun hf => by simp [contribute, hf], fun hauth => ⟨?_, ?_, ?_⟩⟩
  · constructor
    · intro herr
      by_contra hle
      have hle' : env_now ≤ s.roundDeadline := Nat.le_of_not_lt hle
      simp only [contribute, hauth, if_true,
        if_neg (Nat.not_lt.mpr hle')] at herr
      split at herr
      · simp at herr
      · split at herr
        · simp at herr
        · split at herr
          · split at herr
            · simp only [complete_round_payout] at herr
              split at herr <;> simp at herr
            · simp at herr
          · simp at herr
    · intro hlt
      simp [contribute, hauth, hlt]
  · intro hle hnm
    simp [contribute, hauth, Nat.not_lt.mpr hle, List.elem_iff, hnm]
  · intro hle hm hp
    simp [contribute, hauth, Nat.not_lt.mpr hle, List.elem_iff, hm, hp]

/-- Concrete check of C3: each of the four guards observed on a concrete
scheme with members 1 and 2, member 1 already paid, deadline 100. -/
theorem contribute_check_order_witness :
    contribute 50 (fun _ => false) (fun _ _ _ => true) 99
      (some (Scheme.mk 4 [1, 2] 5 7 0 [1] 100 100 [])) 2 =
      .error .Unauthorized ∧
    contribute 101 (fun _ => true) (fun _ _ _ => true) 99
      (some (Scheme.mk 4 [1, 2] 5 7 0 [1] 100 100 [])) 2 =
      .error .DeadlinePassed ∧
    contribute 50 (fun _ => true) (fun _ _ _ => true) 99
      (some (Scheme.mk 4 [1, 2] 5 7 0 [1] 100 100 [])) 3 =
      .error .NotAMember ∧
    contribute 50 (fun _ => true) (fun _ _ _ => true) 99
      (some (Scheme.mk 4 [1, 2] 5 7 0 [1] 100 100 [])) 1 =
      .error .AlreadyContributed :=
  ⟨(contribute_check_order 50 (fun _ => false) (fun _ _ _ => true) 99
      (Scheme.mk 4 [1, 2] 5 7 0 [1] 100 100 []) 2).1 rfl,
   ((contribute_check_order 101 (fun _ => true) (fun _ _ _ => true) 99
      (Scheme.mk 4 [1, 2] 5 7 0 [1] 100 100 []) 2).2 rfl).1.mpr (by decide),
   (((contribute_check_order 50 (fun _ => true) (fun _ _ _ => true) 99
      (Scheme.mk 4 [1, 2] 5 7 0 [1] 100 100 []) 3).2 rfl).2.1
      (by decide) (by decide)),
   (((contribute_check_order 50 (fun _ => true) (fun _ _ _ => true) 99
      (Scheme.mk 4 [1, 2] 5 7 0 [1] 100 100 []) 1).2 rfl).2.2
      (by decide) (by decide) (by decide))⟩

/-- C4: contribute is atomic with respect to the token transfer: when
the incoming transfer of contributionAmt from the contributor fails the
whole call errors, returning no new state and no transfer record (the
caller keeps the unchanged scheme); the same holds when the payout
transfer of a completing contribution fails; and every successful call
had a successful incoming transfer, so the contributor is recorded in
paidMembers only after that transfer succeeded. -/
theorem contribute_transfer_atomic (env_now : Nat) (auth : Address → Bool)
    (transfer : Address → Address → Int → Bool) (contract : Address)
    (s : Scheme) (c : Address) (hauth : auth c = true)
    (hdl : env_now ≤ s.roundDeadline) (hmem : c ∈ s.members)
    (hnp : c ∉ s.paidMembers) :
    (transfer c contract s.contributionAmt = false →
      contribute env_now auth transfer contract (some s) c =
        .error .TransferFailed) ∧
    (∀ s' ts,
      contribute env_now auth transfer contract (some s) c = .ok (s', ts) →
      transfer c contract s.contributionAmt = true ∧ c ∉ s.paidMembers) := by
  constructor
  · intro htr
    simp [contribute, hauth, Nat.not_lt.mpr hdl, List.elem_iff, hmem,
      hnp, htr]
  · intro s' ts h
    obtain ⟨-, -, -, hnp', htr, -⟩ :=
      contribute_ok_cases env_now auth transfer contract s c s' ts h
    exact ⟨htr, hnp'⟩

/-- Concrete check of C4: with a transfer oracle that always fails, the
contribution of member 2 aborts with TransferFailed. -/
theorem contribute_transfer_atomic_witness :
    contribute 50 (fun _ => true) (fun _ _ _ => false) 99
      (some (Scheme.mk 4 [1, 2] 5 7 0 [1] 100 100 [])) 2 =
      .error .TransferFailed :=
  (contribute_transfer_atomic 50 (fun _ => true) (fun _ _ _ => false) 99
    (Scheme.mk 4 [1, 2] 5 7 0 [1] 100 100 []) 2 rfl (by decide)
    (by decide) (by decide)).1 rfl

/-- C5: close_round fails Unauthorized when the caller is not authorized
as the admin, and for an authorized admin it fails DeadlineNotYetPassed
exactly when now <= roundDeadline, so closing at the exact deadline
timestamp is rejected; every such failure returns an error carrying no
new state, so nothing is mutated. -/
theorem close_round_guards (env_now : Nat) (auth : Address → Bool)
    (s : Scheme) :
    (auth s.admin = false →
      close_round env_now auth (some s) = .error .Unauthorized) ∧
    (auth s.admin = true →
      ((close_round env_now auth (some s) = .error .DeadlineNotYetPassed) ↔
        env_now ≤ s.roundDeadline)) := by
  constructor
  · intro hf
    simp [close_round, hf]
  · intro hauth
    constructor
    · intro herr
      by_contra hgt
      simp [close_round, hauth, Nat.lt_of_not_le hgt] at herr
    · intro hle
      simp [close_round, hauth, hle]

/-- Concrete check of C5: an unauthorized caller is rejected, and an
authorized close attempt at exactly the deadline fails
DeadlineNotYetPassed. -/
theorem close_round_guards_witness :
    close_round 200 (fun _ => false)
      (some (Scheme.mk 4 [1, 2] 5 7 0 [] 100 100 [])) =
      .error .Unauthorized ∧
    close_round 100 (fun _ => true)
      (some (Scheme.mk 4 [1, 2] 5 7 0 [] 100 100 [])) =
      .error .DeadlineNotYetPassed :=
  ⟨(close_round_guards 200 (fun _ => false)
      (Scheme.mk 4 [1, 2] 5 7 0 [] 100 100 [])).1 rfl,
   ((close_round_guards 100 (fun _ => true)
      (Scheme.mk 4 [1, 2] 5 7 0 [] 100 100 [])).2 rfl).mpr (by decide)⟩

/-- C6: init fails with AlreadyInitialized whenever the Scheme record
already exists, regardless of the arguments, leaving the record
unchanged; otherwise it persists the Scheme with currentRound 0,
paidMembers and defaulters empty and roundDeadline = now + roundDuration.
Its result type carries no transfer: init moves no funds. -/
theorem init_spec (env_now : Nat) (admin : Address)
    (members : List Address) (amt : Int) (token : Address) (dur : Nat) :
    (∀ s0 : Scheme, init env_now (some s0) admin members amt token dur =
      .error .AlreadyInitialized) ∧
    init env_now none admin members amt token dur =
      .ok { admin := admin, members := members, contributionAmt := amt,
            token := token, currentRound := 0, paidMembers := [],
            roundDuration := dur, roundDeadline := env_now + dur,
            defaulters := [] } :=
  ⟨fun _ => rfl, rfl⟩

/-- C7: every successful contribute or close_round leaves admin, members,
contributionAmt, token and roundDuration exactly as stored, and
get_state only reads the record, returning the round, paid list and
deadline unchanged. -/
theorem immutable_fields (env_now : Nat) (auth : Address → Bool)
    (transfer : Address → Address → Int → Bool) (contract : Address)
    (s : Scheme) (c : Address) :
    (∀ s' ts,
      contribute env_now auth transfer contract (some s) c = .ok (s', ts) →
      s'.admin = s.admin ∧ s'.members = s.members ∧
      s'.contributionAmt = s.contributionAmt ∧ s'.token = s.token ∧
      s'.roundDuration = s.roundDuration) ∧
    (∀ s' ts ev,
      close_round env_now auth (some s) = .ok (s', ts, ev) →
      s'.admin = s.admin ∧ s'.members = s.members ∧
      s'.contributionAmt = s.contributionAmt ∧ s'.token = s.token ∧
      s'.roundDuration = s.roundDuration) ∧
    get_state (some s) = (s.currentRound, s.paidMembers, s.roundDeadline) := by
  refine ⟨?_, ?_, rfl⟩
  · intro s' ts h
    obtain ⟨-, -, -, -, -, hcase⟩ :=
      contribute_ok_cases env_now auth transfer contract s c s' ts h
    rcases hcase with ⟨-, hs, -⟩ | ⟨-, hs, -⟩ <;> subst hs <;>
      exact ⟨rfl, rfl, rfl, rfl, rfl⟩
  · intro s' ts ev h
    obtain ⟨-, -, hs, -, -⟩ :=
      close_round_ok_cases env_now auth s s' ts ev h
    subst hs
    exact ⟨rfl, rfl, rfl, rfl, rfl⟩

/-- Concrete check of C7: one full contribute and one close_round on
concrete schemes preserve the five immutable fields. -/
theorem immutable_fields_witness :
    ((Scheme.mk 4 [1, 2, 3] 5 7 0 [1, 2] 100 100 []).admin =
      (Scheme.mk 4 [1, 2, 3] 5 7 0 [1] 100 100 []).admin ∧
     (Scheme.mk 4 [1, 2, 3] 5 7 0 [1, 2] 100 100 []).members =
      (Scheme.mk 4 [1, 2, 3] 5 7 0 [1] 100 100 []).members ∧
     (Scheme.mk 4 [1, 2, 3] 5 7 0 [1, 2] 100 100 []).contributionAmt =
      (Scheme.mk 4 [1, 2, 3] 5 7 0 [1] 100 100 []).contributionAmt ∧
     (Scheme.mk 4 [1, 2, 3] 5 7 0 [1, 2] 100 100 []).token =
      (Scheme.mk 4 [1, 2, 3] 5 7 0 [1] 100 100 []).token ∧
     (Scheme.mk 4 [1, 2, 3] 5 7 0 [1, 2] 100 100 []).roundDuration =
      (Scheme.mk 4 [1, 2, 3] 5 7 0 [1] 100 100 []).roundDuration) ∧
    (Scheme.mk 4 [1, 2] 5 7 1 [] 100 300 [1]).admin =
      (Scheme.mk 4 [1, 2] 5 7 0 [2] 100 100 []).admin :=
  ⟨(immutable_fields 50 (fun _ => true) (fun _ _ _ => true) 99
      (Scheme.mk 4 [1, 2, 3] 5 7 0 [1] 100 100 []) 2).1
      (Scheme.mk 4 [1, 2, 3] 5 7 0 [1, 2] 100 100 []) [(2, 99, 5)] rfl,
   ((immutable_fields 200 (fun _ => true) (fun _ _ _ => true) 99
      (Scheme.mk 4 [1, 2] 5 7 0 [2] 100 100 []) 2).2.1
      (Scheme.mk 4 [1, 2] 5 7 1 [] 100 300 [1]) [] (0, [1]) rfl).1⟩

/-- The schemes reachable from a valid initialize (non-empty members
without duplicates) by any sequence of successful contribute and
close_round calls, under arbitrary clock, auth and transfer behaviour. -/
inductive Reach : Scheme → Prop where
  | initial (env_now : Nat) (admin : Address) (members : List Address)
      (amt : Int) (token : Address) (dur : Nat) (s : Scheme)
      (hne : members ≠ []) (hnd : members.Nodup)
      (h : init env_now none admin members amt token dur = .ok s) :
      Reach s
  | contrib (env_now : Nat) (auth : Address → Bool)
      (transfer : Address → Address → Int → Bool) (contract : Address)
      (s : Scheme) (c : Address) (s' : Scheme) (ts : List TransferRec)
      (hs : Reach s)
      (h : contribute env_now auth transfer contract (some s) c =
        .ok (s', ts)) : Reach s'
  | close (env_now : Nat) (auth : Address → Bool) (s : Scheme)
      (s' : Scheme) (ts : List TransferRec) (ev : Nat × List Address)
      (hs : Reach s)
      (h : close_round env_now auth (some s) = .ok (s', ts, ev)) :
      Reach s'

/-- Helper: the subset and no-duplicates invariant of paidMembers holds
in every reachable scheme. -/
theorem reach_paid_sub_nodup (s : Scheme) (h : Reach s) :
    s.paidMembers ⊆ s.members ∧ s.paidMembers.Nodup := by
  induction h with
  | initial env_now admin members amt token dur s hne hnd h0 =>
      simp only [init, Except.ok.injEq] at h0
      subst h0
      simp
  | contrib env_now auth transfer contract s c s' ts hs h ih =>
      obtain ⟨-, -, hcm, hcp, -, hcase⟩ :=
        contribute_ok_cases env_now auth transfer contract s c s' ts h
      rcases hcase with ⟨-, hseq, -⟩ | ⟨-, hseq, -⟩ <;> subst hseq
      · constructor
        · intro x hx
          rcases List.mem_append.mp hx with hx | hx
          · exact ih.1 hx
          · rw [List.mem_singleton.mp hx]
            exact hcm
        · simp [List.nodup_append, ih.2, hcp]
      · simp
  | close env_now auth s s' ts ev hs h ih =>
      obtain ⟨-, -, hseq, -, -⟩ :=
        close_round_ok_cases env_now auth s s' ts ev h
      subst hseq
      simp

/-- C8: in every scheme reachable from a valid initialize by contribute
and close_round, paidMembers is a subset of members with no duplicate
entries, and every round transition (any successful step that changes
currentRound) leaves paidMembers empty. -/
theorem paid_members_invariant (s : Scheme) (h : Reach s) :
    (s.paidMembers ⊆ s.members ∧ s.paidMembers.Nodup) ∧
    (∀ env_now auth transfer contract c s' ts,
      contribute env_now auth transfer contract (some s) c = .ok (s', ts) →
      s'.currentRound ≠ s.currentRound → s'.paidMembers = []) ∧
    (∀ env_now auth s' ts ev,
      close_round env_now auth (some s) = .ok (s', ts, ev) →
      s'.currentRound ≠ s.currentRound → s'.paidMembers = []) := by
  refine ⟨reach_paid_sub_nodup s h, ?_, ?_⟩
  · intro env_now auth transfer contract c s' ts hok hrd
    obtain ⟨-, -, -, -, -, hcase⟩ :=
      contribute_ok_cases env_now auth transfer contract s c s' ts hok
    rcases hcase with ⟨-, hseq, -⟩ | ⟨-, hseq, -⟩ <;> subst hseq
    · exact absurd rfl hrd
    · rfl
  · intro env_now auth s' ts ev hok hrd
    obtain ⟨-, -, hseq, -, -⟩ :=
      close_round_ok_cases env_now auth s s' ts ev hok
    subst hseq
    rfl

/-- Concrete check of C8 on the scheme freshly initialized with members
1 and 2. -/
theorem paid_members_invariant_witness :
    (Scheme.mk 4 [1, 2] 5 7 0 [] 100 100 []).paidMembers ⊆
      (Scheme.mk 4 [1, 2] 5 7 0 [] 100 100 []).members ∧
    (Scheme.mk 4 [1, 2] 5 7 0 [] 100 100 []).paidMembers.Nodup :=
  (paid_members_invariant (Scheme.mk 4 [1, 2] 5 7 0 [] 100 100 [])
    (Reach.initial 0 4 [1, 2] 5 7 100
      (Scheme.mk 4 [1, 2] 5 7 0 [] 100 100 [])
      (by decide) (by decide) rfl)).1

/-- C9: on an instance where initialize never succeeded, get_state does
not fail: it returns (0, [], 0), indistinguishable through get_state
from a freshly initialized scheme with a timestamp-0 deadline; while
contribute and close_round always abort with an error when the scheme
record is absent. -/
theorem get_state_uninitialized (env_now : Nat) (auth : Address → Bool)
    (transfer : Address → Address → Int → Bool) (contract : Address)
    (c : Address) :
    get_state none = (0, [], 0) ∧
    (∃ e, contribute env_now auth transfer contract none c = .error e) ∧
    (∃ e, close_round env_now auth none = .error e) ∧
    (∃ s : Scheme, init 0 none 0 [] 0 0 0 = .ok s ∧
      get_state (some s) = get_state none) := by
  refine ⟨rfl, ?_, ⟨.NotInitialized, rfl⟩, ⟨_, rfl, rfl⟩⟩
  by_cases hauth : auth c = true
  · exact ⟨.NotInitialized, by simp [contribute, hauth]⟩
  · exact ⟨.Unauthorized, by simp [contribute, hauth]⟩

/-- C10: init performs no validation of its arguments: for every input,
including an empty members list, duplicate members, a zero or negative
contribution amount and a zero round duration, the call on an
uninitialized instance succeeds and persists the values exactly as
given. -/
theorem init_no_validation (env_now : Nat) (admin : Address)
    (members : List Address) (amt : Int) (token : Address) (dur : Nat) :
    ∃ s : Scheme,
      init env_now none admin members amt token dur = .ok s ∧
      s.admin = admin ∧ s.members = members ∧ s.contributionAmt = amt ∧
      s.token = token ∧ s.roundDuration = dur ∧ s.currentRound = 0 ∧
      s.paidMembers = [] ∧ s.defaulters = [] ∧
      s.roundDeadline = env_now + dur :=
  ⟨_, rfl, rfl, rfl, rfl, rfl, rfl, rfl, rfl, rfl, rfl⟩

end Ahjoor
